import Mathlib

/-!
Verification of the GoodLinks-to-Instapaper sync script (goodlinks2insta.py).

The two core pieces of the program are modelled as executable Lean
functions:

* `add_to_instapaper` embeds the publisher retry loop
  (`for attempt in range(max_retries + 1)` with status classification,
  exponential backoff sleeps of `2**attempt` seconds, and a final
  `return False` when the range is exhausted).  The network is an oracle
  `Nat → ReqResult` giving the result of each HTTP attempt; the function
  returns the outcome together with the number of requests actually
  issued and the list of sleep durations, so that timing and attempt
  counts are provable facts.

* `cmd_sync` embeds the orchestrator loop: pending computation by
  filtering the fetched links against the loaded synced-id set, the
  dry-run and nothing-to-sync early returns, the per-item publish loop
  with `enumerate(to_sync, 1)`, the periodic `i % 10 == 0` state flush,
  and the final flush after the loop.  The per-item publisher is
  abstracted as `pub : Link → PublishOutcome` (True / False / raised
  auth error in the Python).  The result records the final in-memory
  set, every snapshot written to the state store, the ids for which a
  publish call was made, the success and failure counters, and whether
  the run aborted with the authentication error.
-/

/-- Result of one HTTP attempt, as seen by the retry loop:
a status code, a request timeout, a connection error, or another
`requests.RequestException`. -/
inductive ReqResult where
  | status (code : Nat)
  | timeout
  | connError
  | reqError
deriving DecidableEq

/-- Outcome of one publish call as the orchestrator sees it:
`success` is the Python `return True`, `failure` the `return False`
(permanent failure), and `authFailed` the raised RuntimeError on
HTTP 403. -/
inductive PublishOutcome where
  | success
  | failure
  | authFailed
deriving DecidableEq

/-- Trace of one `add_to_instapaper` call: the outcome, how many HTTP
requests were made, and the sleep durations (in seconds) in order. -/
structure PublishTrace where
  outcome : PublishOutcome
  attempts : Nat
  waits : List Nat
deriving DecidableEq

/-- The body of `for attempt in range(max_retries + 1)` in
`add_to_instapaper`.  `fuel` is the number of loop iterations still
available (initially `(max_retries + 1).toNat`), `attempt` the current
loop index, `calls` and `waits` the accumulated request count and sleep
list.  Falling out of the loop is the final `return False` of the
Python function. -/
def publishLoop (orc : Nat → ReqResult) (maxRetries : Int) :
    Nat → Nat → Nat → List Nat → PublishTrace
  | _, 0, calls, waits => ⟨.failure, calls, waits⟩
  | attempt, fuel + 1, calls, waits =>
    match orc attempt with
    | .status c =>
      if c = 201 then ⟨.success, calls + 1, waits⟩
      else if c = 403 then ⟨.authFailed, calls + 1, waits⟩
      else if c = 400 then ⟨.failure, calls + 1, waits⟩
      else if 500 ≤ c then
        if (attempt : Int) < maxRetries then
          publishLoop orc maxRetries (attempt + 1) fuel (calls + 1) (waits ++ [2 ^ attempt])
        else ⟨.failure, calls + 1, waits⟩
      else ⟨.failure, calls + 1, waits⟩
    | .timeout =>
      if (attempt : Int) < maxRetries then
        publishLoop orc maxRetries (attempt + 1) fuel (calls + 1) (waits ++ [2 ^ attempt])
      else ⟨.failure, calls + 1, waits⟩
    | .connError =>
      if (attempt : Int) < maxRetries then
        publishLoop orc maxRetries (attempt + 1) fuel (calls + 1) (waits ++ [2 ^ attempt])
      else ⟨.failure, calls + 1, waits⟩
    | .reqError => ⟨.failure, calls + 1, waits⟩

/-- `add_to_instapaper(url, title, username, password, max_retries)`:
runs the retry loop over the attempt oracle.  `max_retries` is an `Int`
because the CLI flag `-r` accepts any integer, including negatives. -/
def add_to_instapaper (orc : Nat → ReqResult) (maxRetries : Int) : PublishTrace :=
  publishLoop orc maxRetries 0 (maxRetries + 1).toNat 0 []

/-- A link record fetched from GoodLinks: id, url, title. -/
structure Link where
  id : String
  url : String
  title : String
deriving DecidableEq

/-- Observable result of one `cmd_sync` run (publishing phase only):
the final in-memory synced set, the snapshots written to the state
file in order, the ids for which a publish call was made in order, the
success and failure counters, and whether the run aborted with the
authentication RuntimeError. -/
structure SyncResult where
  finalSynced : Finset String
  flushes : List (Finset String)
  published : List String
  newCount : Nat
  failedCount : Nat
  aborted : Bool
deriving DecidableEq

/-- The `for i, link in enumerate(to_sync, 1)` loop of `cmd_sync`,
followed by the unconditional `save_synced_ids(synced)` after the
loop.  On `authFailed` the RuntimeError propagates: no periodic flush
for that item and no final save happen. -/
def syncLoop (pub : Link → PublishOutcome) :
    List Link → Nat → Finset String → List (Finset String) → List String →
      Nat → Nat → SyncResult
  | [], _, synced, flushes, pubs, nc, fc =>
    ⟨synced, flushes ++ [synced], pubs, nc, fc, false⟩
  | l :: rest, i, synced, flushes, pubs, nc, fc =>
    match pub l with
    | .authFailed => ⟨synced, flushes, pubs ++ [l.id], nc, fc, true⟩
    | .success =>
      syncLoop pub rest (i + 1) (insert l.id synced)
        (flushes ++ if i % 10 = 0 then [insert l.id synced] else [])
        (pubs ++ [l.id]) (nc + 1) fc
    | .failure =>
      syncLoop pub rest (i + 1) synced
        (flushes ++ if i % 10 = 0 then [synced] else [])
        (pubs ++ [l.id]) nc (fc + 1)

/-- `to_sync = [l for l in links if l["id"] not in synced]`. -/
def pendingOf (links : List Link) (synced : Finset String) : List Link :=
  links.filter (fun l => decide (l.id ∉ synced))

/-- The publishing phase of `cmd_sync`: pending computation, the
dry-run early return, the nothing-to-sync early return, then the
publish loop starting at index 1 with no flush yet. -/
def cmd_sync (pub : Link → PublishOutcome) (links : List Link)
    (synced0 : Finset String) (dryRun : Bool) : SyncResult :=
  if dryRun then ⟨synced0, [], [], 0, 0, false⟩
  else if pendingOf links synced0 = [] then ⟨synced0, [], [], 0, 0, false⟩
  else syncLoop pub (pendingOf links synced0) 1 synced0 [] [] 0 0

/-- The synced set after processing a list of items: ids of successful
items are inserted, everything else leaves the set unchanged. -/
def applySuccesses (pub : Link → PublishOutcome) (ts : List Link)
    (s : Finset String) : Finset String :=
  ts.foldl (fun acc l => if pub l = .success then insert l.id acc else acc) s

/-- The periodic snapshots written by the `i % 10 == 0` saves while
processing `ts` with item indices starting at `i`. -/
def periodicFlushes (pub : Link → PublishOutcome) :
    List Link → Nat → Finset String → List (Finset String)
  | [], _, _ => []
  | l :: rest, i, s =>
    let s1 := if pub l = .success then insert l.id s else s
    (if i % 10 = 0 then [s1] else []) ++ periodicFlushes pub rest (i + 1) s1

/-- Number of successful items in a list. -/
def countSucc (pub : Link → PublishOutcome) (ts : List Link) : Nat :=
  (ts.filter (fun l => decide (pub l = .success))).length

/-- Number of permanently failed items in a list. -/
def countFail (pub : Link → PublishOutcome) (ts : List Link) : Nat :=
  (ts.filter (fun l => decide (pub l = .failure))).length

/-- `flushCount n i`: how many of the item indices `i, i+1, ..., i+n-1`
are multiples of 10, i.e. how many periodic flushes a run of `n`
processed items starting at index `i` performs. -/
def flushCount : Nat → Nat → Nat
  | 0, _ => 0
  | n + 1, i => (if i % 10 = 0 then 1 else 0) + flushCount n (i + 1)

/-- Publisher used by the C2 scenario: item "b" receives HTTP 403 on
every attempt, every other item receives HTTP 201. -/
def C2pub (l : Link) : PublishOutcome :=
  (add_to_instapaper
    (fun _ => if l.id = "b" then ReqResult.status 403 else ReqResult.status 201) 3).outcome

/-- Five pending items for the C2 scenario; item 2 (id "b") triggers
the authentication failure. -/
def C2links : List Link :=
  [⟨"a", "ua", "ta"⟩, ⟨"b", "ub", "tb"⟩, ⟨"c", "uc", "tc"⟩,
   ⟨"d", "ud", "td"⟩, ⟨"e", "ue", "te"⟩]

/-- Twenty-five distinct links for the C7 partial-progress scenario. -/
def C7links : List Link :=
  (List.range 25).map (fun n => ⟨toString (n + 1), "u", "t"⟩)

/-!  General lemmas about the loops, shared by several claims. -/

/-- Characterization of a full run of the publish loop when no item
fails authentication: the final set inserts exactly the successful
ids, the flush list is the periodic snapshots followed by the final
save, every pending id is published in order, the counters count
successes and failures, and the run does not abort. -/
theorem syncLoop_noAuth (pub : Link → PublishOutcome) :
    ∀ (ts : List Link), (∀ l ∈ ts, pub l ≠ .authFailed) →
    ∀ (i : Nat) (s : Finset String) (fls : List (Finset String))
      (pubs : List String) (nc fc : Nat),
    syncLoop pub ts i s fls pubs nc fc =
      ⟨applySuccesses pub ts s,
       fls ++ (periodicFlushes pub ts i s ++ [applySuccesses pub ts s]),
       pubs ++ ts.map Link.id,
       nc + countSucc pub ts, fc + countFail pub ts, false⟩ := by
  intro ts
  induction ts with
  | nil =>
    intro h i s fls pubs nc fc
    simp [syncLoop, applySuccesses, periodicFlushes, countSucc, countFail]
  | cons l rest ih =>
    intro h i s fls pubs nc fc
    have hl : pub l ≠ .authFailed := h l (List.mem_cons_self _ _)
    have hrest : ∀ x ∈ rest, pub x ≠ .authFailed := fun x hx => h x (List.mem_cons_of_mem _ hx)
    cases hpl : pub l with
    | authFailed => exact absurd hpl hl
    | success =>
      simp only [syncLoop, hpl]
      rw [ih hrest]
      simp [applySuccesses, periodicFlushes, countSucc, countFail, hpl,
        List.filter_cons, List.append_assoc]
      omega
    | failure =>
      simp only [syncLoop, hpl]
      rw [ih hrest]
      simp [applySuccesses, periodicFlushes, countSucc, countFail, hpl,
        List.filter_cons, List.append_assoc]
      omega

/-- Characterization of a run of the publish loop that hits the
authentication failure at the item `la`: the items of `pre` are
processed normally, the publish call on `la` is made, and the run
stops there: items of `post` are untouched, and neither a periodic
flush for the aborting item nor the final save happen. -/
theorem syncLoop_auth (pub : Link → PublishOutcome) :
    ∀ (pre : List Link) (la : Link) (post : List Link),
    (∀ l ∈ pre, pub l ≠ .authFailed) → pub la = .authFailed →
    ∀ (i : Nat) (s : Finset String) (fls : List (Finset String))
      (pubs : List String) (nc fc : Nat),
    syncLoop pub (pre ++ la :: post) i s fls pubs nc fc =
      ⟨applySuccesses pub pre s,
       fls ++ periodicFlushes pub pre i s,
       pubs ++ (pre.map Link.id ++ [la.id]),
       nc + countSucc pub pre, fc + countFail pub pre, true⟩ := by
  intro pre
  induction pre with
  | nil =>
    intro la post hpre hla i s fls pubs nc fc
    simp only [List.nil_append, syncLoop, hla]
    simp [applySuccesses, periodicFlushes, countSucc, countFail]
  | cons l rest ih =>
    intro la post hpre hla i s fls pubs nc fc
    have hl : pub l ≠ .authFailed := hpre l (List.mem_cons_self _ _)
    have hrest : ∀ x ∈ rest, pub x ≠ .authFailed := fun x hx => hpre x (List.mem_cons_of_mem _ hx)
    cases hpl : pub l with
    | authFailed => exact absurd hpl hl
    | success =>
      simp only [List.cons_append, syncLoop, hpl, List.append_eq]
      rw [ih la post hrest hla]
      simp [applySuccesses, periodicFlushes, countSucc, countFail, hpl,
        List.filter_cons, List.append_assoc]
      omega
    | failure =>
      simp only [List.cons_append, syncLoop, hpl, List.append_eq]
      rw [ih la post hrest hla]
      simp [applySuccesses, periodicFlushes, countSucc, countFail, hpl,
        List.filter_cons, List.append_assoc]
      omega

/-- The starting set is contained in the set after processing. -/
theorem subset_applySuccesses (pub : Link → PublishOutcome) :
    ∀ (ts : List Link) (s : Finset String), s ⊆ applySuccesses pub ts s := by
  intro ts
  induction ts with
  | nil => intro s; simp [applySuccesses]
  | cons l rest ih =>
    intro s
    have h1 : applySuccesses pub (l :: rest) s =
        applySuccesses pub rest (if pub l = .success then insert l.id s else s) := by
      simp [applySuccesses]
    rw [h1]
    refine subset_trans ?_ (ih _)
    split
    · exact Finset.subset_insert _ _
    · exact subset_refl _

/-- The id of a successful item of the list is in the set after
processing. -/
theorem mem_applySuccesses (pub : Link → PublishOutcome) :
    ∀ (ts : List Link) (s : Finset String) (l : Link),
      l ∈ ts → pub l = .success → l.id ∈ applySuccesses pub ts s := by
  intro ts
  induction ts with
  | nil => intro s l h; exact absurd h (List.not_mem_nil _)
  | cons hd rest ih =>
    intro s l hmem hsucc
    have h1 : applySuccesses pub (hd :: rest) s =
        applySuccesses pub rest (if pub hd = .success then insert hd.id s else s) := by
      simp [applySuccesses]
    rw [h1]
    rcases List.mem_cons.mp hmem with heq | htail
    · subst heq
      refine subset_applySuccesses pub rest _ ?_
      simp [hsucc]
    · exact ih _ l htail hsucc

/-- An id that starts outside the set and never belongs to a
successful item stays outside the set after processing. -/
theorem notMem_applySuccesses (pub : Link → PublishOutcome) :
    ∀ (ts : List Link) (s : Finset String) (x : String),
      x ∉ s → (∀ l ∈ ts, l.id = x → pub l ≠ .success) →
      x ∉ applySuccesses pub ts s := by
  intro ts
  induction ts with
  | nil => intro s x hx _; simpa [applySuccesses] using hx
  | cons hd rest ih =>
    intro s x hx hall
    have h1 : applySuccesses pub (hd :: rest) s =
        applySuccesses pub rest (if pub hd = .success then insert hd.id s else s) := by
      simp [applySuccesses]
    rw [h1]
    refine ih _ x ?_ (fun l hl => hall l (List.mem_cons_of_mem _ hl))
    split
    · next hsucc =>
      rw [Finset.mem_insert]
      push_neg
      refine ⟨?_, hx⟩
      intro hxi
      exact hall hd (List.mem_cons_self _ _) hxi.symm hsucc
    · exact hx

/-- Every periodic snapshot is contained in the final set. -/
theorem periodicFlushes_subset (pub : Link → PublishOutcome) :
    ∀ (ts : List Link) (i : Nat) (s : Finset String) (f : Finset String),
      f ∈ periodicFlushes pub ts i s → f ⊆ applySuccesses pub ts s := by
  intro ts
  induction ts with
  | nil => intro i s f h; simp [periodicFlushes] at h
  | cons hd rest ih =>
    intro i s f h
    have h1 : applySuccesses pub (hd :: rest) s =
        applySuccesses pub rest (if pub hd = .success then insert hd.id s else s) := by
      simp [applySuccesses]
    rw [h1]
    simp only [periodicFlushes, List.mem_append] at h
    rcases h with h | h
    · have hf : f = (if pub hd = .success then insert hd.id s else s) := by
        by_cases hc : i % 10 = 0 <;> simp [hc] at h
        · exact h
      rw [hf]
      exact subset_applySuccesses pub rest _
    · exact ih _ _ f h

/-- The number of periodic snapshots is the number of multiples of 10
among the item indices. -/
theorem periodicFlushes_length (pub : Link → PublishOutcome) :
    ∀ (ts : List Link) (i : Nat) (s : Finset String),
      (periodicFlushes pub ts i s).length = flushCount ts.length i := by
  intro ts
  induction ts with
  | nil => intro i s; simp [periodicFlushes, flushCount]
  | cons hd rest ih =>
    intro i s
    simp only [periodicFlushes, List.length_append, List.length_cons, flushCount, ih]
    by_cases hc : i % 10 = 0 <;> simp [hc]

/-- Closed form of `flushCount` when indices start above 0. -/
theorem flushCount_eq : ∀ (n i : Nat), flushCount n (i + 1) = (i + n) / 10 - i / 10 := by
  intro n
  induction n with
  | zero => intro i; simp [flushCount]
  | succ n ih =>
    intro i
    have h1 : flushCount (n + 1) (i + 1) =
        (if (i + 1) % 10 = 0 then 1 else 0) + flushCount n (i + 2) := rfl
    rw [h1, ih (i + 1)]
    have hs : (i + 1) / 10 = i / 10 + if 10 ∣ i + 1 then 1 else 0 := Nat.succ_div i 10
    have hmono : (i + 1) / 10 ≤ (i + 1 + n) / 10 := Nat.div_le_div_right (by omega)
    have hmod : (i + 1) % 10 = 0 ↔ 10 ∣ i + 1 := Nat.dvd_iff_mod_eq_zero.symm
    have harg : i + (n + 1) = i + 1 + n := by omega
    rw [harg]
    by_cases hd : 10 ∣ i + 1
    · rw [if_pos (hmod.mpr hd)]
      rw [if_pos hd] at hs
      omega
    · rw [if_neg (fun hc => hd (hmod.mp hc))]
      rw [if_neg hd] at hs
      omega

/-- A run of `n` items with indices starting at 1 performs `n / 10`
periodic flushes. -/
theorem flushCount_one (n : Nat) : flushCount n 1 = n / 10 := by
  have h := flushCount_eq n 0
  simpa using h

/-- After a prefix whose last item index is a multiple of 10, the
current synced set is one of the periodic snapshots. -/
theorem periodicFlushes_mem_prefix (pub : Link → PublishOutcome) :
    ∀ (pre post : List Link) (i : Nat) (s : Finset String),
      pre ≠ [] → (i + pre.length - 1) % 10 = 0 →
      applySuccesses pub pre s ∈ periodicFlushes pub (pre ++ post) i s := by
  intro pre
  induction pre with
  | nil => intro post i s h; exact absurd rfl h
  | cons hd rest ih =>
    intro post i s _ hmod
    have h1 : applySuccesses pub (hd :: rest) s =
        applySuccesses pub rest (if pub hd = .success then insert hd.id s else s) := by
      simp [applySuccesses]
    rw [h1]
    simp only [List.cons_append, periodicFlushes, List.mem_append]
    cases rest with
    | nil =>
      left
      have hi : i % 10 = 0 := by simpa using hmod
      simp [applySuccesses, hi]
    | cons r rs =>
      right
      refine ih post (i + 1) _ (by simp) ?_
      have : i + (hd :: r :: rs).length - 1 = i + 1 + (r :: rs).length - 1 := by
        simp; omega
      omega

/-- Ids in the published list of the loop come from the accumulator or
from the processed list. -/
theorem syncLoop_published_mem (pub : Link → PublishOutcome) :
    ∀ (ts : List Link) (i : Nat) (s : Finset String) (fls : List (Finset String))
      (pubs : List String) (nc fc : Nat) (x : String),
      x ∈ (syncLoop pub ts i s fls pubs nc fc).published →
      x ∈ pubs ∨ ∃ l, l ∈ ts ∧ x = l.id := by
  intro ts
  induction ts with
  | nil =>
    intro i s fls pubs nc fc x h
    simp only [syncLoop] at h
    exact Or.inl h
  | cons hd rest ih =>
    intro i s fls pubs nc fc x h
    cases hpl : pub hd with
    | authFailed =>
      simp only [syncLoop, hpl] at h
      rcases List.mem_append.mp h with h | h
      · exact Or.inl h
      · right; exact ⟨hd, List.mem_cons_self _ _, by simpa using h⟩
    | success =>
      simp only [syncLoop, hpl] at h
      rcases ih _ _ _ _ _ _ x h with h | ⟨l, hl, hx⟩
      · rcases List.mem_append.mp h with h | h
        · exact Or.inl h
        · right; exact ⟨hd, List.mem_cons_self _ _, by simpa using h⟩
      · right; exact ⟨l, List.mem_cons_of_mem _ hl, hx⟩
    | failure =>
      simp only [syncLoop, hpl] at h
      rcases ih _ _ _ _ _ _ x h with h | ⟨l, hl, hx⟩
      · rcases List.mem_append.mp h with h | h
        · exact Or.inl h
        · right; exact ⟨hd, List.mem_cons_self _ _, by simpa using h⟩
      · right; exact ⟨l, List.mem_cons_of_mem _ hl, hx⟩

/-- The final set of the loop only contains starting ids and ids of
processed items. -/
theorem syncLoop_finalSynced_subset (pub : Link → PublishOutcome) :
    ∀ (ts : List Link) (i : Nat) (s : Finset String) (fls : List (Finset String))
      (pubs : List String) (nc fc : Nat),
      (syncLoop pub ts i s fls pubs nc fc).finalSynced ⊆
        s ∪ (ts.map Link.id).toFinset := by
  intro ts
  induction ts with
  | nil =>
    intro i s fls pubs nc fc
    simp [syncLoop]
  | cons hd rest ih =>
    intro i s fls pubs nc fc
    cases hpl : pub hd with
    | authFailed =>
      simp only [syncLoop, hpl]
      exact Finset.subset_union_left
    | success =>
      simp only [syncLoop, hpl]
      refine subset_trans (ih _ _ _ _ _ _) ?_
      intro x hx
      rcases Finset.mem_union.mp hx with hx | hx
      · rcases Finset.mem_insert.mp hx with hx | hx
        · simp [hx]
        · exact Finset.mem_union_left _ hx
      · simp only [List.map_cons, List.toFinset_cons]
        exact Finset.mem_union_right _ (Finset.mem_insert_of_mem hx)
    | failure =>
      simp only [syncLoop, hpl]
      refine subset_trans (ih _ _ _ _ _ _) ?_
      intro x hx
      rcases Finset.mem_union.mp hx with hx | hx
      · exact Finset.mem_union_left _ hx
      · simp only [List.map_cons, List.toFinset_cons]
        exact Finset.mem_union_right _ (Finset.mem_insert_of_mem hx)

/-- Membership in the pending list. -/
theorem mem_pendingOf (links : List Link) (s : Finset String) (l : Link) :
    l ∈ pendingOf links s ↔ l ∈ links ∧ l.id ∉ s := by
  simp [pendingOf]

/-- The pending list is empty exactly when every fetched id is already
synced. -/
theorem pendingOf_eq_nil_iff (links : List Link) (s : Finset String) :
    pendingOf links s = [] ↔ ∀ l ∈ links, l.id ∈ s := by
  simp [pendingOf, List.filter_eq_nil_iff]

/-- A non-dry run with an empty pending list returns immediately with
no publishes and no flushes. -/
theorem cmd_sync_nothing (pub : Link → PublishOutcome) (links : List Link)
    (s : Finset String) (h : pendingOf links s = []) :
    cmd_sync pub links s false = ⟨s, [], [], 0, 0, false⟩ := by
  simp [cmd_sync, h]

/-- A non-dry run with a non-empty pending list enters the publish
loop at index 1. -/
theorem cmd_sync_run (pub : Link → PublishOutcome) (links : List Link) (s0 : Finset String)
    (h : pendingOf links s0 ≠ []) :
    cmd_sync pub links s0 false = syncLoop pub (pendingOf links s0) 1 s0 [] [] 0 0 := by
  simp [cmd_sync, h]

/-!  Claim theorems. -/

/-- C1: with maxRetries = 3 against a service that always returns
HTTP 503, exactly 4 attempts are made and the final result is a
permanent failure, but the waits before the three retries are
1, 2 and 4 seconds (2 to the power attempt, attempt starting at 0),
not the 2, 4 and 8 seconds stated by the claim and by the comment in
the source code. -/
theorem C1_backoff_trace :
    add_to_instapaper (fun _ => ReqResult.status 503) 3 =
      ⟨PublishOutcome.failure, 4, [1, 2, 4]⟩ := by decide

/-- C2 counterexample: five pending items where item 2 (id "b")
triggers HTTP 403.  The run aborts after publishing items 1 and 2,
item 1 succeeded (it is in the in-memory set), yet the list of
snapshots written to the state store is empty: the id of the item that
succeeded before the abort is NOT flushed before the run ends, against
the claim. -/
theorem C2_counterexample :
    (cmd_sync C2pub C2links ∅ false).aborted = true ∧
    (cmd_sync C2pub C2links ∅ false).newCount = 1 ∧
    "a" ∈ (cmd_sync C2pub C2links ∅ false).finalSynced ∧
    (cmd_sync C2pub C2links ∅ false).published = ["a", "b"] ∧
    (cmd_sync C2pub C2links ∅ false).flushes = [] := by decide

/-- C2 (amended): when the pending list splits as `pre ++ la :: post`
with the authentication failure first hit at `la`, the run aborts,
exactly the items up to and including `la` get publish calls (no later
pending item is attempted), and the state store receives only the
`pre.length / 10` periodic flushes made before the abort: successes
after the last periodic flush are not persisted. -/
theorem C2_auth_abort (pub : Link → PublishOutcome) (links : List Link) (s0 : Finset String)
    (pre : List Link) (la : Link) (post : List Link)
    (hsplit : pendingOf links s0 = pre ++ la :: post)
    (hpre : ∀ l ∈ pre, pub l ≠ PublishOutcome.authFailed)
    (hla : pub la = PublishOutcome.authFailed) :
    (cmd_sync pub links s0 false).aborted = true ∧
    (cmd_sync pub links s0 false).published = pre.map Link.id ++ [la.id] ∧
    (cmd_sync pub links s0 false).flushes.length = pre.length / 10 := by
  have hne : pendingOf links s0 ≠ [] := by rw [hsplit]; simp
  rw [cmd_sync_run pub links s0 hne, hsplit, syncLoop_auth pub pre la post hpre hla]
  refine ⟨rfl, by simp, ?_⟩
  simp [periodicFlushes_length, flushCount_one]

/-- C2 witness: the amended statement instantiated on the concrete
five-item scenario. -/
theorem C2_auth_abort_witness :
    (cmd_sync C2pub C2links ∅ false).aborted = true ∧
    (cmd_sync C2pub C2links ∅ false).published =
      [Link.mk "a" "ua" "ta"].map Link.id ++ [(Link.mk "b" "ub" "tb").id] ∧
    (cmd_sync C2pub C2links ∅ false).flushes.length = [Link.mk "a" "ua" "ta"].length / 10 :=
  C2_auth_abort C2pub C2links ∅ [⟨"a", "ua", "ta"⟩] ⟨"b", "ub", "tb"⟩
    [⟨"c", "uc", "tc"⟩, ⟨"d", "ud", "td"⟩, ⟨"e", "ue", "te"⟩]
    (by decide) (by decide) (by decide)

/-- C3 counterexample: two fetched records share the id "a" and both
publish calls are made for that id in a single run, against the
claimed at-most-one publish call per id. -/
theorem C3_counterexample :
    ((cmd_sync (fun _ => PublishOutcome.success)
      [⟨"a", "u1", "t1"⟩, ⟨"a", "u2", "t2"⟩] ∅ false).published.count "a") = 2 := by decide

/-- C3 (amended): the orchestrator performs no dedup within a run: in
an auth-failure-free run, one publish call is made per pending record
in source order, so an id occurring `n` times among pending records
receives `n` publish calls. -/
theorem C3_no_dedup (pub : Link → PublishOutcome) (links : List Link) (s0 : Finset String)
    (h : ∀ l ∈ pendingOf links s0, pub l ≠ PublishOutcome.authFailed) :
    (cmd_sync pub links s0 false).published = (pendingOf links s0).map Link.id := by
  by_cases hne : pendingOf links s0 = []
  · simp [cmd_sync, hne]
  · rw [cmd_sync_run pub links s0 hne, syncLoop_noAuth pub _ h]
    simp

/-- C3 witness: the amended statement on the duplicate-id scenario. -/
theorem C3_no_dedup_witness :
    (cmd_sync (fun _ => PublishOutcome.success)
        [Link.mk "a" "u1" "t1", Link.mk "a" "u2" "t2"] ∅ false).published =
      (pendingOf [Link.mk "a" "u1" "t1", Link.mk "a" "u2" "t2"] ∅).map Link.id :=
  C3_no_dedup _ _ _ (by decide)

/-- C4 counterexample: HTTP 200 is a success status, but the code only
treats exactly 201 as success; 200 falls into the catch-all branch and
returns False (permanent failure) on the first attempt. -/
theorem C4_counterexample :
    (add_to_instapaper (fun _ => ReqResult.status 200) 3).outcome ≠
        PublishOutcome.success ∧
      add_to_instapaper (fun _ => ReqResult.status 200) 3 =
        ⟨PublishOutcome.failure, 1, []⟩ := by decide

/-- C4 (amended): on a first-attempt response with status `c` where
`c ≠ 403` and `c < 500`, the call returns after exactly one request and
no sleep; the outcome is Success when `c = 201` and a permanent failure
for every other such status, 400 and other success statuses such as
200 included. -/
theorem C4_classification (orc : Nat → ReqResult) (m : Int) (c : Nat)
    (hm : 0 ≤ m) (h0 : orc 0 = ReqResult.status c) (h403 : c ≠ 403) (h500 : c < 500) :
    add_to_instapaper orc m =
      ⟨if c = 201 then PublishOutcome.success else PublishOutcome.failure, 1, []⟩ := by
  unfold add_to_instapaper
  obtain ⟨k, hk⟩ : ∃ k, (m + 1).toNat = k + 1 := ⟨m.toNat, by omega⟩
  rw [hk]
  simp only [publishLoop, h0]
  by_cases h201 : c = 201
  · simp [h201]
  · by_cases h400 : c = 400
    · simp [h201, h400]
    · have hlt : ¬ (500 ≤ c) := by omega
      simp [h201, h400, h403, hlt]

/-- C4 witness: status 200 with maxRetries 3 yields a permanent failure
after one request. -/
theorem C4_classification_witness :
    (0 : Int) ≤ 3 ∧ (200 : Nat) ≠ 403 ∧ (200 : Nat) < 500 ∧
      add_to_instapaper (fun _ => ReqResult.status 200) 3 =
        ⟨if (200 : Nat) = 201 then PublishOutcome.success else PublishOutcome.failure, 1, []⟩ :=
  ⟨by decide, by decide, by decide,
    C4_classification (fun _ => ReqResult.status 200) 3 200 (by decide) rfl
      (by decide) (by decide)⟩

/-- C5 counterexample: one pending item that permanently fails on
every attempt.  The first run publishes it, fails, and the final flush
writes the empty set, so the durable state after run 1 equals the
state before it; the second run is therefore the same call and again
makes one publish call for "a", not zero. -/
theorem C5_counterexample :
    (cmd_sync (fun _ => PublishOutcome.failure) [⟨"a", "u", "t"⟩] ∅ false).flushes = [∅] ∧
    (cmd_sync (fun _ => PublishOutcome.failure) [⟨"a", "u", "t"⟩] ∅ false).published =
      ["a"] := by decide

/-- C5 (amended): if every pending item of the first run succeeds,
the pending list computed from the final synced set is empty, so a
second run from the persisted state makes zero publish calls; and in
full generality an id present in the loaded synced set is never
published by a run that loads it. -/
theorem C5_idempotence (pub pub2 : Link → PublishOutcome) (links : List Link) (s0 : Finset String)
    (hall : ∀ l ∈ pendingOf links s0, pub l = PublishOutcome.success) :
    pendingOf links (cmd_sync pub links s0 false).finalSynced = [] ∧
    (cmd_sync pub2 links (cmd_sync pub links s0 false).finalSynced false).published = [] ∧
    (∀ (s1 : Finset String) (x : String), x ∈ s1 →
      x ∉ (cmd_sync pub links s1 false).published) := by
  have hthird : ∀ (s1 : Finset String) (x : String), x ∈ s1 →
      x ∉ (cmd_sync pub links s1 false).published := by
    intro s1 x hx hmem
    by_cases hne : pendingOf links s1 = []
    · rw [cmd_sync_nothing pub links s1 hne] at hmem
      exact List.not_mem_nil x hmem
    · rw [cmd_sync_run pub links s1 hne] at hmem
      rcases syncLoop_published_mem pub _ _ _ _ _ _ _ x hmem with h | ⟨l, hl, hid⟩
      · exact absurd h (List.not_mem_nil x)
      · exact ((mem_pendingOf links s1 l).mp hl).2 (hid ▸ hx)
  have hempty : pendingOf links (cmd_sync pub links s0 false).finalSynced = [] := by
    by_cases hne : pendingOf links s0 = []
    · rw [cmd_sync_nothing pub links s0 hne]
      exact hne
    · rw [cmd_sync_run pub links s0 hne, syncLoop_noAuth pub _
        (fun l hl => by simp [hall l hl])]
      rw [pendingOf_eq_nil_iff]
      intro l hl
      by_cases hmem : l.id ∈ s0
      · exact subset_applySuccesses pub _ _ hmem
      · have hp : l ∈ pendingOf links s0 := (mem_pendingOf links s0 l).mpr ⟨hl, hmem⟩
        exact mem_applySuccesses pub _ _ l hp (hall l hp)
  refine ⟨hempty, ?_, hthird⟩
  rw [cmd_sync_nothing pub2 links _ hempty]

/-- C5 witness: one always-successful item; the second run from the
final state publishes nothing, and an id already in the loaded state
is never published. -/
theorem C5_idempotence_witness :
    pendingOf [Link.mk "a" "u" "t"]
      (cmd_sync (fun _ => PublishOutcome.success) [Link.mk "a" "u" "t"] ∅ false).finalSynced
      = [] ∧
    (cmd_sync (fun _ => PublishOutcome.success) [Link.mk "a" "u" "t"]
      (cmd_sync (fun _ => PublishOutcome.success) [Link.mk "a" "u" "t"] ∅ false).finalSynced
      false).published = [] ∧
    "a" ∉ (cmd_sync (fun _ => PublishOutcome.success) [Link.mk "a" "u" "t"]
      {"a"} false).published :=
  ⟨(C5_idempotence (fun _ => PublishOutcome.success) (fun _ => PublishOutcome.success)
      [Link.mk "a" "u" "t"] ∅ (by decide)).1,
   (C5_idempotence (fun _ => PublishOutcome.success) (fun _ => PublishOutcome.success)
      [Link.mk "a" "u" "t"] ∅ (by decide)).2.1,
   (C5_idempotence (fun _ => PublishOutcome.success) (fun _ => PublishOutcome.success)
      [Link.mk "a" "u" "t"] ∅ (by decide)).2.2 {"a"} "a" (by decide)⟩

/-- C6: the pending list is the order-preserving sublist of the
fetched links whose ids are not in the loaded synced set (so as a set
it is the difference of the fetched ids and the synced ids, whatever
the source order), and every id the run ever adds to the synced set is
either a previously synced id or the id of some fetched link. -/
theorem C6_pending (pub : Link → PublishOutcome) (links : List Link) (s : Finset String)
    (dryRun : Bool) (l : Link) :
    List.Sublist (pendingOf links s) links ∧
    (l ∈ pendingOf links s ↔ l ∈ links ∧ l.id ∉ s) ∧
    (cmd_sync pub links s dryRun).finalSynced ⊆ s ∪ (links.map Link.id).toFinset := by
  refine ⟨List.filter_sublist _, mem_pendingOf links s l, ?_⟩
  cases dryRun with
  | true =>
    simp [cmd_sync]
  | false =>
    by_cases hne : pendingOf links s = []
    · rw [cmd_sync_nothing pub links s hne]
      exact Finset.subset_union_left
    · rw [cmd_sync_run pub links s hne]
      refine subset_trans (syncLoop_finalSynced_subset pub _ _ _ _ _ _ _) ?_
      refine Finset.union_subset_union (subset_refl _) ?_
      intro x hx
      simp only [List.mem_toFinset, List.mem_map] at hx ⊢
      obtain ⟨l2, hl2, hid⟩ := hx
      exact ⟨l2, ((mem_pendingOf links s l2).mp hl2).1, hid⟩

/-- C7: in an auth-failure-free run with a non-empty pending list, the
synced set as it stands after every 10th processed item (successes and
failures alike) is written to the state store, the number of writes is
one periodic flush per 10 items plus the unconditional final flush,
and the last write is the final synced set; on 25 pending items that
all succeed from an empty state, the three writes hold 10, 20 and 25
ids. -/
theorem C7_flush_schedule (pub : Link → PublishOutcome) (links : List Link) (s0 : Finset String)
    (hna : ∀ l ∈ pendingOf links s0, pub l ≠ PublishOutcome.authFailed)
    (hne : pendingOf links s0 ≠ []) :
    (∀ pre post : List Link, pendingOf links s0 = pre ++ post → pre ≠ [] →
        pre.length % 10 = 0 →
        applySuccesses pub pre s0 ∈ (cmd_sync pub links s0 false).flushes) ∧
    (cmd_sync pub links s0 false).flushes.length = (pendingOf links s0).length / 10 + 1 ∧
    (cmd_sync pub links s0 false).flushes.getLast? =
      some (cmd_sync pub links s0 false).finalSynced ∧
    ((cmd_sync (fun _ => PublishOutcome.success) C7links ∅ false).flushes.map
      Finset.card) = [10, 20, 25] := by
  rw [cmd_sync_run pub links s0 hne, syncLoop_noAuth pub _ hna]
  refine ⟨?_, ?_, ?_, by decide⟩
  · intro pre post hsplit hpre hmod
    simp only [List.nil_append, List.mem_append]
    left
    rw [hsplit]
    refine periodicFlushes_mem_prefix pub pre post 1 s0 hpre ?_
    simpa using hmod
  · simp [periodicFlushes_length, flushCount_one]
  · simp [List.getLast?_concat]

/-- C7 witness: the 25-item all-success scenario; the snapshot after
the first 10 items is among the writes, there are 25 / 10 + 1 = 3
writes, and the last write is the final set. -/
theorem C7_flush_schedule_witness :
    applySuccesses (fun _ => PublishOutcome.success) (C7links.take 10) ∅ ∈
      (cmd_sync (fun _ => PublishOutcome.success) C7links ∅ false).flushes ∧
    (cmd_sync (fun _ => PublishOutcome.success) C7links ∅ false).flushes.length =
      (pendingOf C7links ∅).length / 10 + 1 ∧
    (cmd_sync (fun _ => PublishOutcome.success) C7links ∅ false).flushes.getLast? =
      some (cmd_sync (fun _ => PublishOutcome.success) C7links ∅ false).finalSynced :=
  ⟨(C7_flush_schedule (fun _ => PublishOutcome.success) C7links ∅ (by decide) (by decide)).1
      (C7links.take 10) (C7links.drop 10) (by decide) (by decide) (by decide),
   (C7_flush_schedule (fun _ => PublishOutcome.success) C7links ∅ (by decide) (by decide)).2.1,
   (C7_flush_schedule (fun _ => PublishOutcome.success) C7links ∅ (by decide) (by decide)).2.2.1⟩

/-- C8: a dry run returns before the publish loop and before any
state-store write: no publish call is made, no flush is written, and
the in-memory set is returned unchanged, whatever the pending count. -/
theorem C8_dry_run (pub : Link → PublishOutcome) (links : List Link) (s0 : Finset String) :
    (cmd_sync pub links s0 true).published = [] ∧
    (cmd_sync pub links s0 true).flushes = [] ∧
    (cmd_sync pub links s0 true).finalSynced = s0 := by
  simp [cmd_sync]

/-- C9: in an auth-failure-free run, the run never aborts and every
pending item gets its publish call (per-item permanent failures
continue to the next item), the failed counter counts exactly the
permanently failed items, and an id outside the loaded state all of
whose pending occurrences permanently fail is in neither the final
synced set nor any flushed snapshot, so it is pending again on every
future run. -/
theorem C9_permanent_failure (pub : Link → PublishOutcome) (links : List Link)
    (s0 : Finset String)
    (hna : ∀ l ∈ pendingOf links s0, pub l ≠ PublishOutcome.authFailed) :
    (cmd_sync pub links s0 false).aborted = false ∧
    (cmd_sync pub links s0 false).published = (pendingOf links s0).map Link.id ∧
    (cmd_sync pub links s0 false).failedCount = countFail pub (pendingOf links s0) ∧
    (∀ x : String, x ∉ s0 →
      (∀ l ∈ pendingOf links s0, l.id = x → pub l = PublishOutcome.failure) →
      x ∉ (cmd_sync pub links s0 false).finalSynced ∧
      ∀ f ∈ (cmd_sync pub links s0 false).flushes, x ∉ f) := by
  by_cases hne : pendingOf links s0 = []
  · rw [cmd_sync_nothing pub links s0 hne, hne]
    refine ⟨rfl, rfl, by simp [countFail], ?_⟩
    intro x hx _
    exact ⟨hx, by simp⟩
  · rw [cmd_sync_run pub links s0 hne, syncLoop_noAuth pub _ hna]
    refine ⟨rfl, by simp, by simp, ?_⟩
    intro x hx hfail
    have hnotmem : x ∉ applySuccesses pub (pendingOf links s0) s0 :=
      notMem_applySuccesses pub _ _ x hx
        (fun l hl hid => by simp [hfail l hl hid])
    refine ⟨hnotmem, ?_⟩
    intro f hf
    simp only [List.nil_append, List.mem_append] at hf
    rcases hf with hf | hf
    · exact fun hxf => hnotmem (periodicFlushes_subset pub _ _ _ f hf hxf)
    · simp only [List.mem_singleton] at hf
      rw [hf]
      exact hnotmem

/-- C9 witness: two items that always permanently fail: the run does
not abort, both failures are counted, and "a" stays out of the final
synced set. -/
theorem C9_permanent_failure_witness :
    (cmd_sync (fun _ => PublishOutcome.failure)
      [Link.mk "a" "u" "t", Link.mk "b" "v" "w"] ∅ false).aborted = false ∧
    (cmd_sync (fun _ => PublishOutcome.failure)
      [Link.mk "a" "u" "t", Link.mk "b" "v" "w"] ∅ false).failedCount =
      countFail (fun _ => PublishOutcome.failure)
        (pendingOf [Link.mk "a" "u" "t", Link.mk "b" "v" "w"] ∅) ∧
    "a" ∉ (cmd_sync (fun _ => PublishOutcome.failure)
      [Link.mk "a" "u" "t", Link.mk "b" "v" "w"] ∅ false).finalSynced :=
  ⟨(C9_permanent_failure (fun _ => PublishOutcome.failure)
      [Link.mk "a" "u" "t", Link.mk "b" "v" "w"] ∅ (by decide)).1,
   (C9_permanent_failure (fun _ => PublishOutcome.failure)
      [Link.mk "a" "u" "t", Link.mk "b" "v" "w"] ∅ (by decide)).2.2.1,
   ((C9_permanent_failure (fun _ => PublishOutcome.failure)
      [Link.mk "a" "u" "t", Link.mk "b" "v" "w"] ∅ (by decide)).2.2.2 "a"
      (by decide) (by decide)).1⟩

/-- C10: when `max_retries` is negative, `range(max_retries + 1)` is
empty, so the loop body never runs: zero HTTP requests are made and
the function falls through to `return False`. -/
theorem C10_negative_retries (orc : Nat → ReqResult) (m : Int) (hm : m < 0) :
    add_to_instapaper orc m = ⟨PublishOutcome.failure, 0, []⟩ := by
  unfold add_to_instapaper
  have h : (m + 1).toNat = 0 := by omega
  rw [h]
  rfl

/-- C10 witness: concrete run with `max_retries = -1`. -/
theorem C10_negative_retries_witness :
    (-1 : Int) < 0 ∧
      add_to_instapaper (fun _ => ReqResult.status 201) (-1) =
        ⟨PublishOutcome.failure, 0, []⟩ :=
  ⟨by decide, C10_negative_retries (fun _ => ReqResult.status 201) (-1) (by decide)⟩
